import Mathlib

set_option autoImplicit false

/-
Verification of the message-queue / execution-coordinator / session-registry /
permission-gateway core of the claude-code-slack-bot repository, as a shallow
embedding.  JavaScript `Map` and `Set` fields are modelled as functions
(matching `Map.get` / `Set.has` semantics) except where iteration order is
observable, in which case insertion-ordered association lists are used.
Filesystem effects are modelled by explicit state (the storage file as a
structured optional value, the IPC directory as an optional file listing),
and backend (`execSync`) successes by explicit boolean oracles.
-/

namespace ClaudeSlackBot

/-- A queued work item, after the QueuedMessage shape in src/message-queue.ts:
text, attached files (opaque references), timestamp, and the interrupt flag. -/
structure QueuedMessage where
  text : String
  files : List String
  timestamp : Nat
  isInterrupt : Bool
  deriving DecidableEq, Repr

/-- State of the MessageQueue class: `queues` is the Map from queue key to the
array of pending messages, `processing` is the Set of keys currently owned by a
drain loop. -/
structure MessageQueue where
  queues : String → Option (List QueuedMessage)
  processing : String → Bool

/-- Key built by MessageQueue.getQueueKey and TmuxManager.getThreadKey: the
channel id and the thread timestamp joined by a dash. -/
def queueKey (channel threadTs : String) : String :=
  channel ++ "-" ++ threadTs

/-- MessageQueue.enqueue: an interrupt message replaces the whole queue for the
key by the single new message; otherwise the message is pushed at the tail
(the queue is created empty first when the key is absent). -/
def MessageQueue.enqueue (mq : MessageQueue) (channel threadTs : String)
    (m : QueuedMessage) : MessageQueue :=
  let key := queueKey channel threadTs
  let q := (mq.queues key).getD []
  if m.isInterrupt then
    { mq with queues := fun k => if k = key then some [m] else mq.queues k }
  else
    { mq with queues := fun k => if k = key then some (q ++ [m]) else mq.queues k }

/-- MessageQueue.dequeue: pops the head of the key's queue; `none` when the
queue is absent or empty.  Returns the popped message with the new state. -/
def MessageQueue.dequeue (mq : MessageQueue) (channel threadTs : String) :
    Option QueuedMessage × MessageQueue :=
  match mq.queues (queueKey channel threadTs) with
  | none => (none, mq)
  | some [] => (none, mq)
  | some (m :: rest) =>
      (some m,
       { mq with queues := fun k =>
          if k = queueKey channel threadTs then some rest else mq.queues k })

/-- MessageQueue.isProcessing: membership of the key in the processing set. -/
def MessageQueue.isProcessing (mq : MessageQueue) (channel threadTs : String) : Bool :=
  mq.processing (queueKey channel threadTs)

/-- MessageQueue.setProcessing: adds the key to or deletes it from the
processing set. -/
def MessageQueue.setProcessing (mq : MessageQueue) (channel threadTs : String)
    (b : Bool) : MessageQueue :=
  { mq with processing := fun k =>
      if k = queueKey channel threadTs then b else mq.processing k }

/-- MessageQueue.getQueueSize: length of the key's queue, 0 when absent. -/
def MessageQueue.getQueueSize (mq : MessageQueue) (channel threadTs : String) : Nat :=
  ((mq.queues (queueKey channel threadTs)).getD []).length

/-- MessageQueue.hasMessages: whether the key's queue size is positive. -/
def MessageQueue.hasMessages (mq : MessageQueue) (channel threadTs : String) : Bool :=
  decide (0 < mq.getQueueSize channel threadTs)

/-- Contents of one thread's queue, the empty list when the key is absent. -/
def MessageQueue.queueContents (mq : MessageQueue) (channel threadTs : String) :
    List QueuedMessage :=
  (mq.queues (queueKey channel threadTs)).getD []

/-- Folding MessageQueue.enqueue over a list of messages, in order. -/
def MessageQueue.enqueueAll (mq : MessageQueue) (channel threadTs : String)
    (ms : List QueuedMessage) : MessageQueue :=
  ms.foldl (fun s m => s.enqueue channel threadTs m) mq

/-- Repeated MessageQueue.dequeue with fuel, collecting the messages returned
until a dequeue comes back empty or the fuel runs out. -/
def MessageQueue.drainN (channel threadTs : String) :
    Nat → MessageQueue → List QueuedMessage
  | 0, _ => []
  | fuel + 1, mq =>
    match mq.dequeue channel threadTs with
    | (none, _) => []
    | (some m, mq2) => m :: MessageQueue.drainN channel threadTs fuel mq2

theorem drainN_zero (c t : String) (mq : MessageQueue) :
    MessageQueue.drainN c t 0 mq = [] := rfl

theorem drainN_succ (c t : String) (fuel : Nat) (mq : MessageQueue) :
    MessageQueue.drainN c t (fuel + 1) mq =
      match mq.dequeue c t with
      | (none, _) => []
      | (some m, mq2) => m :: MessageQueue.drainN c t fuel mq2 := rfl

theorem queueContents_enqueue_self (mq : MessageQueue) (c t : String)
    (m : QueuedMessage) (h : m.isInterrupt = false) :
    (mq.enqueue c t m).queueContents c t = mq.queueContents c t ++ [m] := by
  simp [MessageQueue.enqueue, MessageQueue.queueContents, h]

theorem queueContents_enqueueAll (c t : String) (ms : List QueuedMessage) :
    ∀ mq : MessageQueue, (∀ m ∈ ms, m.isInterrupt = false) →
    (mq.enqueueAll c t ms).queueContents c t = mq.queueContents c t ++ ms := by
  induction ms with
  | nil => intro mq _; simp [MessageQueue.enqueueAll]
  | cons m ms ih =>
    intro mq h
    have hm : m.isInterrupt = false := h m (List.mem_cons_self m ms)
    have hrest := ih (mq.enqueue c t m) (fun x hx => h x (List.mem_cons_of_mem _ hx))
    have hstep : (mq.enqueueAll c t (m :: ms)) = ((mq.enqueue c t m).enqueueAll c t ms) := by
      simp [MessageQueue.enqueueAll]
    rw [hstep, hrest, queueContents_enqueue_self mq c t m hm]
    simp

theorem dequeue_eq_none_iff (mq : MessageQueue) (c t : String) :
    (mq.dequeue c t).1 = none ↔ mq.queueContents c t = [] := by
  unfold MessageQueue.dequeue MessageQueue.queueContents
  cases h : mq.queues (queueKey c t) with
  | none => simp
  | some l =>
    cases l with
    | nil => simp
    | cons m rest => simp

theorem dequeue_cons (mq : MessageQueue) (c t : String) (m : QueuedMessage)
    (rest : List QueuedMessage) (h : mq.queueContents c t = m :: rest) :
    (mq.dequeue c t).1 = some m ∧ ((mq.dequeue c t).2).queueContents c t = rest := by
  have hq : mq.queues (queueKey c t) = some (m :: rest) := by
    unfold MessageQueue.queueContents at h
    cases hh : mq.queues (queueKey c t) with
    | none => rw [hh] at h; simp at h
    | some l => rw [hh] at h; simp at h; rw [h]
  unfold MessageQueue.dequeue MessageQueue.queueContents
  rw [hq]
  simp

theorem drainN_eq (c t : String) :
    ∀ (l : List QueuedMessage) (fuel : Nat) (mq : MessageQueue),
    mq.queueContents c t = l → l.length ≤ fuel →
    MessageQueue.drainN c t fuel mq = l := by
  intro l
  induction l with
  | nil =>
    intro fuel mq h _
    cases fuel with
    | zero => rfl
    | succ n =>
      have hnone : (mq.dequeue c t).1 = none := (dequeue_eq_none_iff mq c t).mpr h
      rw [drainN_succ]
      rcases hd : mq.dequeue c t with ⟨o, mq2⟩
      rw [hd] at hnone
      simp at hnone
      rw [hnone]
  | cons m rest ih =>
    intro fuel mq h hlen
    cases fuel with
    | zero => simp at hlen
    | succ n =>
      obtain ⟨h1, h2⟩ := dequeue_cons mq c t m rest h
      rw [drainN_succ]
      rcases hd : mq.dequeue c t with ⟨o, mq2⟩
      rw [hd] at h1 h2
      simp at h1
      rw [h1]
      simp only []
      have hlen2 : rest.length ≤ n := by simpa using hlen
      rw [ih n mq2 h2 hlen2]

/-- Oracle for the body of one drain-loop iteration: the processing of one
dequeued message (SlackHandler.processClaudeMessage) transforms the queue state
(other enqueues may land while it runs) and reports whether it threw. -/
def Handler := QueuedMessage → MessageQueue → MessageQueue × Bool

/-- The while loop inside SlackHandler.processMessageQueue, fuel-indexed: while
hasMessages, dequeue, stop when the dequeue comes back empty, run the body; a
thrown error exits the loop carrying the state at that point. -/
def drainLoop (h : Handler) (c t : String) : Nat → MessageQueue → MessageQueue × Bool
  | 0, mq => (mq, false)
  | fuel + 1, mq =>
    if mq.hasMessages c t then
      match mq.dequeue c t with
      | (none, mq2) => (mq2, false)
      | (some m, mq2) =>
        match h m mq2 with
        | (mq3, true) => (mq3, true)
        | (mq3, false) => drainLoop h c t fuel mq3
    else (mq, false)

/-- SlackHandler.processMessageQueue: sets the processing flag, runs the drain
loop inside try, and the finally clause clears the flag on every exit path,
error exits included. -/
def processMessageQueue (h : Handler) (c t : String) (fuel : Nat)
    (mq : MessageQueue) : MessageQueue × Bool :=
  let r := drainLoop h c t fuel (mq.setProcessing c t true)
  (r.1.setProcessing c t false, r.2)

/-- Tail of SlackHandler.enqueueAndProcessMessage: enqueue the message, then
start the drain loop only when the thread is not already processing. -/
def enqueueAndProcess (h : Handler) (c t : String) (m : QueuedMessage)
    (fuel : Nat) (mq : MessageQueue) : MessageQueue × Bool :=
  let mq1 := mq.enqueue c t m
  if mq1.isProcessing c t then (mq1, false)
  else processMessageQueue h c t fuel mq1

theorem isProcessing_setProcessing (mq : MessageQueue) (c t : String) (b : Bool) :
    (mq.setProcessing c t b).isProcessing c t = b := by
  simp [MessageQueue.isProcessing, MessageQueue.setProcessing]

theorem isProcessing_enqueue (mq : MessageQueue) (c t c' t' : String)
    (m : QueuedMessage) :
    (mq.enqueue c t m).isProcessing c' t' = mq.isProcessing c' t' := by
  cases hm : m.isInterrupt <;>
    simp [MessageQueue.enqueue, MessageQueue.isProcessing, hm]

/- Concrete fixtures used by witnesses and counterexamples. -/

/-- Concrete non-interrupt message. -/
def msgA : QueuedMessage := ⟨"build the API", [], 1, false⟩

/-- Concrete non-interrupt message. -/
def msgB : QueuedMessage := ⟨"add tests", [], 2, false⟩

/-- Concrete interrupt message. -/
def msgStop : QueuedMessage := ⟨"stop now", [], 5, true⟩

/-- Queue state with no queues and no processing flags. -/
def emptyMQ : MessageQueue := ⟨fun _ => none, fun _ => false⟩

/-- Queue state holding two older non-interrupt messages for key C-T. -/
def mqTwo : MessageQueue := (emptyMQ.enqueue "C" "T" msgA).enqueue "C" "T" msgB

/-- Queue state whose processing flag for key C-T is set. -/
def busyMQ : MessageQueue := emptyMQ.setProcessing "C" "T" true

/-- Handler oracle that consumes a message without touching the queue state and
never throws. -/
def handlerNoop : Handler := fun _ mq => (mq, false)

/-- C4: for every queue state of a thread (absent or empty queue included),
enqueuing a message with isInterrupt = true leaves that thread's queue equal to
the one-element sequence containing exactly that message, discarding everything
previously queued. -/
theorem interrupt_enqueue_singleton (mq : MessageQueue) (c t : String)
    (m : QueuedMessage) (h : m.isInterrupt = true) :
    (mq.enqueue c t m).queues (queueKey c t) = some [m] := by
  simp [MessageQueue.enqueue, h]

/-- Witness for the C4 theorem at a concrete queue holding two older messages. -/
theorem interrupt_enqueue_singleton_witness :
    (mqTwo.enqueue "C" "T" msgStop).queues (queueKey "C" "T") = some [msgStop] :=
  interrupt_enqueue_singleton mqTwo "C" "T" msgStop rfl

/-- C5: for every sequence of non-interrupt enqueues on one thread whose queue
starts empty, the messages returned by successive dequeues equal the enqueue
sequence (FIFO), and dequeue returns none exactly when the thread's queue is
empty. -/
theorem fifo_order (mq : MessageQueue) (c t : String) (ms : List QueuedMessage)
    (fuel : Nat)
    (hint : ∀ m ∈ ms, m.isInterrupt = false)
    (hempty : mq.queueContents c t = [])
    (hfuel : ms.length ≤ fuel) :
    MessageQueue.drainN c t fuel (mq.enqueueAll c t ms) = ms
      ∧ ((mq.dequeue c t).1 = none ↔ mq.queueContents c t = []) := by
  constructor
  · apply drainN_eq
    · rw [queueContents_enqueueAll c t ms mq hint, hempty]; simp
    · exact hfuel
  · exact dequeue_eq_none_iff mq c t

/-- Witness for the C5 theorem: two concrete messages drain back in order. -/
theorem fifo_order_witness :
    MessageQueue.drainN "C" "T" 2 (emptyMQ.enqueueAll "C" "T" [msgA, msgB]) = [msgA, msgB]
      ∧ ((emptyMQ.dequeue "C" "T").1 = none ↔ emptyMQ.queueContents "C" "T" = []) :=
  fifo_order emptyMQ "C" "T" [msgA, msgB] 2 (by decide) rfl (by decide)

/-- C3: the state the drain loop starts from has the processing flag true, the
flag is false on every exit of processMessageQueue (error exits included), and
when the flag is already true enqueueAndProcess only enqueues and starts no
second loop, so at most one drain loop is active per thread. -/
theorem single_flight (h : Handler) (c t : String) (m : QueuedMessage)
    (fuel : Nat) (mq : MessageQueue) :
    (mq.setProcessing c t true).isProcessing c t = true
      ∧ ((processMessageQueue h c t fuel mq).1.isProcessing c t = false)
      ∧ (mq.isProcessing c t = true →
          enqueueAndProcess h c t m fuel mq = (mq.enqueue c t m, false)) := by
  refine ⟨isProcessing_setProcessing mq c t true, ?_, ?_⟩
  · simp [processMessageQueue, isProcessing_setProcessing]
  · intro hp
    have hq : (mq.enqueue c t m).isProcessing c t = true := by
      rw [isProcessing_enqueue]; exact hp
    simp [enqueueAndProcess, hq]

/-- Witness for the C3 theorem: flag cleared after a run on a concrete queue,
and no second loop started on a thread already marked processing. -/
theorem single_flight_witness :
    ((processMessageQueue handlerNoop "C" "T" 3 mqTwo).1.isProcessing "C" "T" = false)
      ∧ enqueueAndProcess handlerNoop "C" "T" msgA 3 busyMQ
          = (busyMQ.enqueue "C" "T" msgA, false) :=
  ⟨(single_flight handlerNoop "C" "T" msgA 3 mqTwo).2.1,
   (single_flight handlerNoop "C" "T" msgA 3 busyMQ).2.2 rfl⟩

/-- Decision carried by an approval outcome, after the PermissionResponse shape
in src/permission-mcp-server.ts. -/
inductive Behavior where
  | allow
  | deny
  deriving DecidableEq, Repr

/-- Approval outcome record: behavior plus optional updated input and message
(payloads kept opaque as strings). -/
structure PermissionResponse where
  behavior : Behavior
  updatedInput : Option String
  message : Option String
  deriving DecidableEq, Repr

/-- Response built inside the catch of handlePermissionPrompt: deny, with the
error message. -/
def errorDenyResponse : PermissionResponse :=
  ⟨Behavior.deny, none, some "Error occurred while requesting permission"⟩

/-- One tick of the setInterval body of PermissionMCPServer.waitForApproval.
The argument is the state of the response file at that tick: none when the file
does not exist (the tick does nothing), some none when it exists but JSON.parse
throws (the catch logs the error and the interval keeps running, so the tick
resolves nothing), some (some r) when it parses (the promise resolves r). -/
def checkOnce (file : Option (Option PermissionResponse)) : Option PermissionResponse :=
  match file with
  | none => none
  | some none => none
  | some (some r) => some r

/-- Polling loop of waitForApproval over a timeline of response-file states,
fuel-bounded: resolves at the first tick whose check resolves; none when no
tick within the fuel resolves (the real wait has no timeout, so none means the
wait is still pending after that many ticks). -/
def pollFrom (fileAt : Nat → Option (Option PermissionResponse)) (i : Nat) :
    Nat → Option PermissionResponse
  | 0 => none
  | fuel + 1 =>
    match checkOnce (fileAt i) with
    | some r => some r
    | none => pollFrom fileAt (i + 1) fuel

/-- Fuel-bounded observation of PermissionMCPServer.waitForApproval, polling
from the first tick onward. -/
def waitForApprovalUpTo (fileAt : Nat → Option (Option PermissionResponse))
    (fuel : Nat) : Option PermissionResponse :=
  pollFrom fileAt 0 fuel

/-- Control flow of PermissionMCPServer.handlePermissionPrompt around the wait:
the try posts the Slack request message, awaits waitForApproval, and updates
the Slack message with the outcome; when the post or the update throws, the
catch returns the deny response; when the wait does not resolve, nothing is
returned at all.  The two boolean oracles record whether the two Slack calls
succeed. -/
def handlePermissionPromptModel (postOk updateOk : Bool)
    (fileAt : Nat → Option (Option PermissionResponse)) (fuel : Nat) :
    Option PermissionResponse :=
  if postOk = false then some errorDenyResponse
  else
    match waitForApprovalUpTo fileAt fuel with
    | none => none
    | some r => if updateOk then some r else some errorDenyResponse

/-- JavaScript String.prototype.endsWith over the character sequence of the
string: the last characters of s equal suff. -/
def jsEndsWith (s suff : String) : Bool :=
  decide (s.data.drop (s.data.length - suff.data.length) = suff.data)

/-- PermissionMCPServer.hasPendingApproval: reads the IPC directory listing
(none models readdir throwing, which the catch turns into false) and returns
whether any listed file name ends in .pending.  The session-key argument is
accepted but never consulted. -/
def hasPendingApprovalModel (dir : Option (List String)) (sessionKey : String) : Bool :=
  match dir with
  | none => false
  | some files => files.any (fun f => jsEndsWith f ".pending")

theorem pollFrom_malformed (fileAt : Nat → Option (Option PermissionResponse))
    (hmal : ∀ n, fileAt n = some none) :
    ∀ fuel i, pollFrom fileAt i fuel = none := by
  intro fuel
  induction fuel with
  | zero => intro i; rfl
  | succ n ih =>
    intro i
    show (match checkOnce (fileAt i) with
          | some r => some r
          | none => pollFrom fileAt (i + 1) n) = none
    rw [hmal i]
    exact ih (i + 1)

/-- Timeline on which the response record exists at every tick but never
parses. -/
def malformedTimeline : Nat → Option (Option PermissionResponse) :=
  fun _ => some none

/-- Timeline on which the response record is absent for two ticks and then
parses to an allow outcome. -/
def allowTimeline : Nat → Option (Option PermissionResponse) :=
  fun n => if n < 2 then none else some (some ⟨Behavior.allow, none, none⟩)

/-- C2 counterexample: with the response record present but unparseable, the
poll tick resolves nothing — checkOnce comes back none rather than a deny —
and one hundred ticks of waitForApproval over a persistently malformed record
still resolve nothing, so the request does not resolve with decision deny at
this input: it keeps waiting. -/
theorem malformed_record_resolves_nothing :
    checkOnce (some none) = none
      ∧ waitForApprovalUpTo malformedTimeline 100 = none := by
  exact ⟨rfl, by decide⟩

/-- C2 amended: failures around the wait fail safe — a failed Slack post
resolves deny, and a failed Slack update after a resolved wait also resolves
deny (never allow) — but a response record that exists and cannot be parsed
does not resolve the request at all: the poll swallows the parse error and
keeps waiting for as long as the record stays malformed. -/
theorem gateway_fail_safe (fileAt : Nat → Option (Option PermissionResponse))
    (fuel : Nat) :
    (∀ updateOk, handlePermissionPromptModel false updateOk fileAt fuel
        = some errorDenyResponse)
      ∧ (∀ r, waitForApprovalUpTo fileAt fuel = some r →
          handlePermissionPromptModel true false fileAt fuel = some errorDenyResponse)
      ∧ ((∀ n, fileAt n = some none) → ∀ i, pollFrom fileAt i fuel = none) := by
  refine ⟨?_, ?_, ?_⟩
  · intro updateOk; simp [handlePermissionPromptModel]
  · intro r hr; simp [handlePermissionPromptModel, hr]
  · intro hmal i; exact pollFrom_malformed fileAt hmal fuel i

/-- Witness for the C2 amended theorem at concrete timelines. -/
theorem gateway_fail_safe_witness :
    handlePermissionPromptModel false true malformedTimeline 3 = some errorDenyResponse
      ∧ handlePermissionPromptModel true false allowTimeline 3 = some errorDenyResponse
      ∧ pollFrom malformedTimeline 0 3 = none :=
  ⟨(gateway_fail_safe malformedTimeline 3).1 true,
   (gateway_fail_safe allowTimeline 3).2.1 ⟨Behavior.allow, none, none⟩ (by decide),
   (gateway_fail_safe malformedTimeline 3).2.2 (fun _ => rfl) 0⟩

/-- C9: the pending-approval test answers the same whatever session key it is
given, over a readable directory answers true exactly when some listed file
name ends in .pending, and answers false when the directory cannot be read. -/
theorem pending_check_session_agnostic (dir : Option (List String))
    (k k' : String) (files : List String) :
    hasPendingApprovalModel dir k = hasPendingApprovalModel dir k'
      ∧ (hasPendingApprovalModel (some files) k = true
          ↔ ∃ f ∈ files, jsEndsWith f ".pending" = true)
      ∧ hasPendingApprovalModel none k = false := by
  refine ⟨rfl, ?_, rfl⟩
  simp [hasPendingApprovalModel, List.any_eq_true]

/-- Witness for the C9 theorem on a concrete directory listing. -/
theorem pending_check_session_agnostic_witness :
    hasPendingApprovalModel (some ["approval_1.pending"]) "U-C-T"
        = hasPendingApprovalModel (some ["approval_1.pending"]) "other-key"
      ∧ hasPendingApprovalModel (some ["approval_1.pending"]) "U-C-T" = true :=
  ⟨(pending_check_session_agnostic (some ["approval_1.pending"]) "U-C-T" "other-key"
      ["approval_1.pending"]).1,
   (pending_check_session_agnostic (some ["approval_1.pending"]) "U-C-T" "other-key"
      ["approval_1.pending"]).2.1.mpr (by decide)⟩

/-- Mapping record of TmuxManager, after the SessionMapping shape in
src/tmux-manager.ts. -/
structure SessionMapping where
  threadKey : String
  sessionName : String
  createdAt : Nat
  workingDirectory : Option String
  deriving DecidableEq, Repr

/-- In-memory fields of TmuxManager: the sessions Map, modelled as an
insertion-ordered association list because iteration order is observable in
closeSession and getSessionByName, plus the allocation counter. -/
structure TmuxState where
  sessions : List (String × SessionMapping)
  sessionCounter : Nat
  deriving DecidableEq, Repr

/-- Payload of the session storage file, the JSON object written by
saveSessions: the entries array plus the counter. -/
structure StorageData where
  sessions : List (String × SessionMapping)
  counter : Nat
  deriving DecidableEq, Repr

/-- World around TmuxManager: the manager state, the list of tmux sessions the
backend currently has (probed by sessionExists), and the storage file content
(none when the file is absent). -/
structure World where
  tmux : TmuxState
  live : List String
  storage : Option StorageData
  deriving DecidableEq, Repr

/-- Map.get on an insertion-ordered association list. -/
def alookup {α : Type} (k : String) : List (String × α) → Option α
  | [] => none
  | (k', v) :: rest => if k' = k then some v else alookup k rest

/-- Map.set on an insertion-ordered association list: replace in place when the
key is present, append at the end otherwise. -/
def aset {α : Type} (k : String) (v : α) : List (String × α) → List (String × α)
  | [] => [(k, v)]
  | (k', v') :: rest => if k' = k then (k, v) :: rest else (k', v') :: aset k v rest

/-- Keys of an association list. -/
def akeys {α : Type} (l : List (String × α)) : List String := l.map Prod.fst

/-- TmuxManager.saveSessions: serializes the entries array and the counter into
the storage file payload. -/
def saveSessions (t : TmuxState) : StorageData :=
  ⟨t.sessions, t.sessionCounter⟩

/-- Construction of a JavaScript Map from an entries array (new Map on pairs):
pairs are inserted in order, a repeated key keeps its first position with the
last value. -/
def mapOfPairs {α : Type} (l : List (String × α)) : List (String × α) :=
  l.foldl (fun acc p => aset p.1 p.2 acc) []

/-- TmuxManager.loadSessions: when the storage file is present and parses, the
sessions Map is rebuilt from the entries and the counter restored; when it is
absent, the fields keep their initial values. -/
def loadSessions (d : Option StorageData) : TmuxState :=
  match d with
  | some data => ⟨mapOfPairs data.sessions, data.counter⟩
  | none => ⟨[], 0⟩

/-- TmuxManager.sessionExists: the liveness probe (tmux has-session), true when
the backend has a session of that name. -/
def sessionExists (live : List String) (sessionName : String) : Bool :=
  live.contains sessionName

/-- TmuxManager.getSession: answers the mapped session name only when a mapping
exists for the thread key (queueKey coincides with getThreadKey) and its
backing session is still alive. -/
def getSession (t : TmuxState) (live : List String) (channel threadTs : String) :
    Option String :=
  match alookup (queueKey channel threadTs) t.sessions with
  | some m => if sessionExists live m.sessionName then some m.sessionName else none
  | none => none

/-- String conversion of the counter padded to three digits with zeros, as in
padStart. -/
def pad3 (n : Nat) : String :=
  let s := toString n
  if s.length ≥ 3 then s else String.mk (List.replicate (3 - s.length) '0') ++ s

/-- Fresh-session path of TmuxManager.createSession, entered after the
existing-mapping check has failed: the counter is incremented, the name formed,
and the backend asked to start the session (createOk records whether the
command succeeds).  On success the mapping is recorded, saved, and the new
session becomes live; on failure the method throws — result none — leaving
table and storage untouched, only the already-incremented counter differing. -/
def createSessionNew (w : World) (tk : String) (wd : Option String) (now : Nat)
    (createOk : Bool) : World × Option String :=
  let counter := w.tmux.sessionCounter + 1
  let name := "claude_slack_" ++ pad3 counter
  if createOk then
    let mapping : SessionMapping := ⟨tk, name, now, wd⟩
    let sessions := aset tk mapping w.tmux.sessions
    ({ tmux := ⟨sessions, counter⟩, live := name :: w.live,
       storage := some ⟨sessions, counter⟩ }, some name)
  else
    ({ w with tmux := { w.tmux with sessionCounter := counter } }, none)

/-- TmuxManager.createSession: when a mapping for the thread key exists and its
session is alive, that name is returned with nothing changed; otherwise the
fresh-session path runs. -/
def createSession (w : World) (channel threadTs : String) (wd : Option String)
    (now : Nat) (createOk : Bool) : World × Option String :=
  let tk := queueKey channel threadTs
  match alookup tk w.tmux.sessions with
  | some m =>
    if sessionExists w.live m.sessionName then (w, some m.sessionName)
    else createSessionNew w tk wd now createOk
  | none => createSessionNew w tk wd now createOk

/-- Deletion loop of TmuxManager.closeSession: iterate the entries in insertion
order, delete the first whose sessionName matches, then break; none when no
entry matches (then no deletion and no save happen). -/
def removeFirstByName (name : String) :
    List (String × SessionMapping) → Option (List (String × SessionMapping))
  | [] => none
  | (tk, m) :: rest =>
    if m.sessionName = name then some rest
    else (removeFirstByName name rest).map (fun r => (tk, m) :: r)

/-- TmuxManager.closeSession: kills the backend session (killOk records whether
the command succeeds; on failure the catch returns false with nothing changed),
then deletes the first matching mapping and saves when one exists. -/
def closeSession (w : World) (name : String) (killOk : Bool) : World × Bool :=
  if killOk then
    let live := w.live.erase name
    match removeFirstByName name w.tmux.sessions with
    | some sessions =>
      ({ tmux := ⟨sessions, w.tmux.sessionCounter⟩, live := live,
         storage := some ⟨sessions, w.tmux.sessionCounter⟩ }, true)
    | none => ({ w with live := live }, true)
  else (w, false)

theorem aset_of_not_mem {α : Type} (k : String) (v : α) :
    ∀ l : List (String × α), k ∉ akeys l → aset k v l = l ++ [(k, v)] := by
  intro l
  induction l with
  | nil => intro _; rfl
  | cons p rest ih =>
    intro hk
    obtain ⟨k', v'⟩ := p
    have hk1 : k' ≠ k := by
      intro he
      exact hk (by simp [akeys, he])
    have hk2 : k ∉ akeys rest := by
      intro hm
      exact hk (by simp [akeys] at hm ⊢; exact Or.inr hm)
    simp [aset, hk1, ih hk2]

theorem mapOfPairs_aux {α : Type} :
    ∀ (l acc : List (String × α)),
    (akeys l).Nodup → (∀ k ∈ akeys l, k ∉ akeys acc) →
    l.foldl (fun a p => aset p.1 p.2 a) acc = acc ++ l := by
  intro l
  induction l with
  | nil => intro acc _ _; simp
  | cons p rest ih =>
    intro acc hnd hdisj
    obtain ⟨k, v⟩ := p
    have hkeys : akeys ((k, v) :: rest) = k :: akeys rest := rfl
    rw [hkeys] at hnd hdisj
    have hk_acc : k ∉ akeys acc := hdisj k (List.mem_cons_self k _)
    have hnd' : (akeys rest).Nodup := hnd.of_cons
    have hk_rest : k ∉ akeys rest := (List.nodup_cons.mp hnd).1
    have hdisj' : ∀ k' ∈ akeys rest, k' ∉ akeys (acc ++ [(k, v)]) := by
      intro k' hk'
      have h1 : k' ∉ akeys acc := hdisj k' (List.mem_cons_of_mem _ hk')
      have h2 : k' ≠ k := by
        intro he
        exact hk_rest (he ▸ hk')
      simp [akeys] at h1 ⊢
      exact ⟨h1, h2⟩
    have step : aset k v acc = acc ++ [(k, v)] := aset_of_not_mem k v acc hk_acc
    calc List.foldl (fun a p => aset p.1 p.2 a) acc ((k, v) :: rest)
        = List.foldl (fun a p => aset p.1 p.2 a) (aset k v acc) rest := by
          simp [List.foldl]
      _ = List.foldl (fun a p => aset p.1 p.2 a) (acc ++ [(k, v)]) rest := by rw [step]
      _ = (acc ++ [(k, v)]) ++ rest := ih (acc ++ [(k, v)]) hnd' hdisj'
      _ = acc ++ (k, v) :: rest := by simp

theorem mapOfPairs_id {α : Type} (l : List (String × α)) (h : (akeys l).Nodup) :
    mapOfPairs l = l := by
  have := mapOfPairs_aux l [] h (by intro k _ hc; simp [akeys] at hc)
  simpa [mapOfPairs] using this

theorem removeFirstByName_spec (name : String) :
    ∀ (l sessions2 : List (String × SessionMapping)),
    removeFirstByName name l = some sessions2 →
    ∃ pre p post, l = pre ++ p :: post ∧ p.2.sessionName = name
      ∧ (∀ q ∈ pre, q.2.sessionName ≠ name) ∧ sessions2 = pre ++ post := by
  intro l
  induction l with
  | nil => intro s2 h; simp [removeFirstByName] at h
  | cons hd rest ih =>
    intro s2 h
    obtain ⟨tk, m⟩ := hd
    by_cases hm : m.sessionName = name
    · simp [removeFirstByName, hm] at h
      exact ⟨[], (tk, m), rest, by simp, hm, by simp, by simp [h]⟩
    · simp only [removeFirstByName, if_neg hm] at h
      cases hr : removeFirstByName name rest with
      | none => rw [hr] at h; simp at h
      | some r =>
        rw [hr] at h
        simp at h
        obtain ⟨pre, p, post, hl, hp, hpre, hs⟩ := ih r hr
        refine ⟨(tk, m) :: pre, p, post, by simp [hl], hp, ?_, by simp [← h, hs]⟩
        intro q hq
        rcases List.mem_cons.mp hq with hq1 | hq2
        · rw [hq1]; exact hm
        · exact hpre q hq2

/- Concrete fixtures for the session-registry claims. -/

/-- Mapping of a first thread to the session claude_slack_001. -/
def mapTK1 : SessionMapping := ⟨"C-T1", "claude_slack_001", 0, none⟩

/-- Mapping of a second thread to the same session claude_slack_001, as
produced by the connect-to-session operation (mapThreadToSession). -/
def mapTK2 : SessionMapping := ⟨"C-T2", "claude_slack_001", 1, none⟩

/-- World in which two thread mappings point at the same live session. -/
def wTwoSame : World :=
  ⟨⟨[("C-T1", mapTK1), ("C-T2", mapTK2)], 1⟩, ["claude_slack_001"], none⟩

/-- World with an empty table, no live sessions, and no storage file. -/
def wEmpty : World := ⟨⟨[], 0⟩, [], none⟩

/-- Table with one mapping, used by the round-trip witness. -/
def tOne : TmuxState := ⟨[("C-T1", mapTK1)], 1⟩

/-- C6 counterexample: with two thread mappings pointing at the same session
name, a successful close removes only the first — the second mapping, still
pointing at the closed name, survives in the table — so close does not remove
every mapping whose sessionName equals that name. -/
theorem close_keeps_second_mapping :
    (closeSession wTwoSame "claude_slack_001" true).2 = true
      ∧ alookup "C-T2"
          (closeSession wTwoSame "claude_slack_001" true).1.tmux.sessions
          = some mapTK2
      ∧ mapTK2.sessionName = "claude_slack_001" := by
  decide

/-- C6 amended: a successful close terminates the backing host and removes the
first mapping in table order whose sessionName equals the given name,
persisting the updated table, when such a mapping exists; mappings after the
first match, including further mappings to the same name, are retained, and
when no mapping matches the table and the storage file are left as they were. -/
theorem close_removes_first_mapping (w : World) (name : String) :
    ((closeSession w name true).1.live = w.live.erase name)
      ∧ (∀ sessions2, removeFirstByName name w.tmux.sessions = some sessions2 →
          closeSession w name true
            = (⟨⟨sessions2, w.tmux.sessionCounter⟩, w.live.erase name,
                some ⟨sessions2, w.tmux.sessionCounter⟩⟩, true))
      ∧ (removeFirstByName name w.tmux.sessions = none →
          closeSession w name true = ({ w with live := w.live.erase name }, true))
      ∧ (∀ l sessions2, removeFirstByName name l = some sessions2 →
          ∃ pre p post, l = pre ++ p :: post ∧ p.2.sessionName = name
            ∧ (∀ q ∈ pre, q.2.sessionName ≠ name) ∧ sessions2 = pre ++ post) := by
  refine ⟨?_, ?_, ?_, fun l s2 h => removeFirstByName_spec name l s2 h⟩
  · unfold closeSession
    cases h : removeFirstByName name w.tmux.sessions <;> simp [h]
  · intro sessions2 h
    simp [closeSession, h]
  · intro h
    simp [closeSession, h]

/-- Witness for the C6 amended theorem on the two-mapping fixture. -/
theorem close_removes_first_mapping_witness :
    closeSession wTwoSame "claude_slack_001" true
      = (⟨⟨[("C-T2", mapTK2)], 1⟩, [], some ⟨[("C-T2", mapTK2)], 1⟩⟩, true) :=
  (close_removes_first_mapping wTwoSame "claude_slack_001").2.1
    [("C-T2", mapTK2)] (by decide)

/-- C7: when the backend command to start a new host fails, createSession
throws (result none) and records nothing — the mapping table and the storage
file are unchanged, and find answers exactly as before, for every thread key. -/
theorem create_failure_records_nothing (w : World) (channel threadTs : String)
    (wd : Option String) (now : Nat)
    (hexist : getSession w.tmux w.live channel threadTs = none) :
    (createSession w channel threadTs wd now false).2 = none
      ∧ (createSession w channel threadTs wd now false).1.tmux.sessions
          = w.tmux.sessions
      ∧ (createSession w channel threadTs wd now false).1.storage = w.storage
      ∧ ∀ c t, getSession (createSession w channel threadTs wd now false).1.tmux
            (createSession w channel threadTs wd now false).1.live c t
          = getSession w.tmux w.live c t := by
  have hbranch : createSession w channel threadTs wd now false
      = createSessionNew w (queueKey channel threadTs) wd now false := by
    unfold createSession
    cases hm : alookup (queueKey channel threadTs) w.tmux.sessions with
    | none => simp [hm]
    | some m =>
      have hlive : sessionExists w.live m.sessionName = false := by
        cases hl : sessionExists w.live m.sessionName with
        | false => rfl
        | true =>
          have hsome : getSession w.tmux w.live channel threadTs = some m.sessionName := by
            unfold getSession
            rw [hm]
            simp [hl]
          rw [hexist] at hsome
          exact Option.noConfusion hsome
      simp [hm, hlive]
  rw [hbranch]
  refine ⟨rfl, rfl, rfl, fun c t => rfl⟩

/-- Witness for the C7 theorem at the empty world. -/
theorem create_failure_records_nothing_witness :
    (createSession wEmpty "C" "T" none 0 false).2 = none
      ∧ (createSession wEmpty "C" "T" none 0 false).1.tmux.sessions
          = wEmpty.tmux.sessions
      ∧ (createSession wEmpty "C" "T" none 0 false).1.storage = wEmpty.storage
      ∧ ∀ c t, getSession (createSession wEmpty "C" "T" none 0 false).1.tmux
            (createSession wEmpty "C" "T" none 0 false).1.live c t
          = getSession wEmpty.tmux wEmpty.live c t :=
  create_failure_records_nothing wEmpty "C" "T" none 0 rfl

/-- C8: saving the session table to the storage payload and reloading it yields
the same table and counter — for every table whose keys are unique, as Map
entries are — so a find issued after the reload answers the same live mapping
as before persistence, under the same backend liveness. -/
theorem storage_round_trip (t : TmuxState) (live : List String)
    (channel threadTs : String) (h : (akeys t.sessions).Nodup) :
    loadSessions (some (saveSessions t)) = t
      ∧ getSession (loadSessions (some (saveSessions t))) live channel threadTs
          = getSession t live channel threadTs := by
  have hid : mapOfPairs t.sessions = t.sessions := mapOfPairs_id t.sessions h
  have heq : loadSessions (some (saveSessions t)) = t := by
    simp [loadSessions, saveSessions, hid]
  exact ⟨heq, by rw [heq]⟩

/-- Witness for the C8 theorem on a one-entry table. -/
theorem storage_round_trip_witness :
    loadSessions (some (saveSessions tOne)) = tOne
      ∧ getSession (loadSessions (some (saveSessions tOne)))
            ["claude_slack_001"] "C" "T1"
          = getSession tOne ["claude_slack_001"] "C" "T1" :=
  storage_round_trip tOne ["claude_slack_001"] "C" "T1" (by decide)

/-- C10: when the backend command to kill the host fails, closeSession returns
false and leaves the in-memory table, the storage file, and every find answer
unchanged. -/
theorem close_failure_changes_nothing (w : World) (name : String) :
    (closeSession w name false).2 = false
      ∧ (closeSession w name false).1.tmux.sessions = w.tmux.sessions
      ∧ (closeSession w name false).1.storage = w.storage
      ∧ ∀ c t, getSession (closeSession w name false).1.tmux
            (closeSession w name false).1.live c t
          = getSession w.tmux w.live c t := by
  exact ⟨rfl, rfl, rfl, fun c t => rfl⟩

/-- ClaudeHandler.getSessionKey: user, channel, and thread timestamp (or the
word direct when the timestamp is absent or empty, the falsy cases) joined by
dashes. -/
def getSessionKey (userId channelId : String) (threadTs : Option String) : String :=
  userId ++ "-" ++ channelId ++ "-" ++
    (match threadTs with
     | some t => if t = "" then "direct" else t
     | none => "direct")

/-- Coordinator-facing state of SlackHandler: the message queue, the
activeControllers Map — the Bool records whether that controller has been
aborted — and the IPC directory listing consulted by hasPendingApproval. -/
structure HandlerState where
  mq : MessageQueue
  controllers : String → Option Bool
  ipcFiles : Option (List String)

/-- Interrupt branch of SlackHandler.enqueueAndProcessMessage: aborts the
active controller for the thread's session key whenever one exists — with no
pending-approval check — and then enqueues the interrupt message, which clears
the thread's queue. -/
def handleInterrupt (st : HandlerState) (user channel threadTs : String)
    (text : String) (files : List String) (now : Nat) : HandlerState :=
  let sk := getSessionKey user channel (some threadTs)
  let st1 :=
    match st.controllers sk with
    | some _ =>
        { st with controllers := fun k => if k = sk then some true else st.controllers k }
    | none => st
  { st1 with mq := st1.mq.enqueue channel threadTs ⟨text, files, now, true⟩ }

/-- Outcome of the legacy cancellation check in SlackHandler.handleMessage. -/
inductive CancelOutcome where
  | refusedPendingApproval
  | proceeded
  deriving DecidableEq, Repr

/-- Cancellation check of the legacy non-threaded path in
SlackHandler.handleMessage: when a controller is active for the session key and
an approval is pending, the handler informs the user and returns, touching
nothing; otherwise the existing controller is aborted.  With no active
controller the check is skipped entirely. -/
def directCancelCheck (st : HandlerState) (sessionKey : String) :
    CancelOutcome × HandlerState :=
  match st.controllers sessionKey with
  | some _ =>
    if hasPendingApprovalModel st.ipcFiles sessionKey then
      (CancelOutcome.refusedPendingApproval, st)
    else
      (CancelOutcome.proceeded,
       { st with controllers := fun k =>
          if k = sessionKey then some true else st.controllers k })
  | none => (CancelOutcome.proceeded, st)

/-- Session key of the counterexample thread. -/
def skU : String := getSessionKey "U" "C" (some "T")

/-- Handler state with an active, not yet aborted controller for skU and one
pending approval marker in the IPC directory. -/
def stPending : HandlerState :=
  ⟨emptyMQ, fun k => if k = skU then some false else none,
   some ["approval_1.pending"]⟩

/-- C1 counterexample: with an execution active for the thread's session key
and an approval pending — the pending-approval test answers true — an
interrupt arriving through the queue path still aborts the execution, so
cancel-if-and-only-if-not-awaiting-approval fails at this input. -/
theorem interrupt_aborts_despite_pending_approval :
    hasPendingApprovalModel stPending.ipcFiles skU = true
      ∧ (handleInterrupt stPending "U" "C" "T" "stop now" [] 5).controllers skU
          = some true := by
  exact ⟨by decide, by decide⟩

/-- C1 amended: in the threaded queue path an interrupt always aborts the
active execution for the session key, with no regard to the pending-approval
state; the refusal while awaiting approval lives only in the legacy
non-threaded path, where any new message finding an active controller together
with a pending approval is refused, leaving the controllers and the approval
state untouched. -/
theorem interrupt_cancellation_paths (st : HandlerState)
    (user channel threadTs text : String) (files : List String) (now : Nat)
    (sessionKey : String) (b : Bool) :
    ((st.controllers (getSessionKey user channel (some threadTs))).isSome = true →
        (handleInterrupt st user channel threadTs text files now).controllers
          (getSessionKey user channel (some threadTs)) = some true)
      ∧ (st.controllers sessionKey = some b →
          hasPendingApprovalModel st.ipcFiles sessionKey = true →
          directCancelCheck st sessionKey
            = (CancelOutcome.refusedPendingApproval, st)) := by
  constructor
  · intro hact
    cases hc : st.controllers (getSessionKey user channel (some threadTs)) with
    | none => rw [hc] at hact; simp at hact
    | some bb => simp [handleInterrupt, hc]
  · intro hb hpend
    simp [directCancelCheck, hb, hpend]

/-- Witness for the C1 amended theorem at the concrete pending-approval state:
the queue-path interrupt aborts, the legacy direct path refuses. -/
theorem interrupt_cancellation_paths_witness :
    ((handleInterrupt stPending "U" "C" "T" "stop now" [] 5).controllers skU
        = some true)
      ∧ directCancelCheck stPending skU
          = (CancelOutcome.refusedPendingApproval, stPending) :=
  ⟨(interrupt_cancellation_paths stPending "U" "C" "T" "stop now" [] 5 skU false).1
      (by decide),
   (interrupt_cancellation_paths stPending "U" "C" "T" "stop now" [] 5 skU false).2
      rfl (by decide)⟩

end ClaudeSlackBot
